import Mathlib

/-!
Verification of the performance-analysis and portfolio-weight components of
the backtest framework (performance_analyzer.py, get_buy_signal.py,
portfolio_weights_gen.py).

Conventions of the shallow embedding:
* Trading dates are natural numbers; date-indexed series are lists ordered
  by date.  Floating-point values are embedded as rationals; a missing value
  (pandas NaN) is embedded as `none` in an `Option ℚ` column.
* Python exceptions that can escape `get_performance_analysis` are embedded
  with `Except String`; exceptions swallowed by a try/except in the source
  (the OLS block) are embedded by that block's fallback values.
* Display-only metrics of the source that can neither raise nor feed another
  computation (volatility, Sharpe, Sortino, tracking error, information
  ratio, Calmar, the chart generation, console printing, and the final
  rounding of the metrics dict to 4 decimals) are not stored in the result
  record; the annualization formula (1 + total)^(252/N) - 1 is stated
  directly, over the reals, in the theorem about the returns claim.
-/

namespace BF

/-- np.argmax on a rational list: position of the first maximal element.
Helper carrying (current best value, its position, next position). -/
def argmaxGo : ℚ → ℕ → ℕ → List ℚ → ℕ
  | _, best, _, [] => best
  | b, best, i, x :: rest =>
    if b < x then argmaxGo x i (i + 1) rest else argmaxGo b best (i + 1) rest

/-- np.argmax.  `none` on the empty list models the ValueError
"attempt to get argmax of an empty sequence" that numpy raises there. -/
def argmaxQ : List ℚ → Option ℕ
  | [] => none
  | x :: rest => some (argmaxGo x 0 1 rest)

/-- Helper for `runningMax`, carrying the running maximum so far. -/
def runMaxGo : ℚ → List ℚ → List ℚ
  | _, [] => []
  | m, x :: rest => max m x :: runMaxGo (max m x) rest

/-- np.maximum.accumulate: the running maximum of a series. -/
def runningMax : List ℚ → List ℚ
  | [] => []
  | x :: rest => x :: runMaxGo x rest

/-- The drawdown series (cummax(x) - x) / cummax(x) from the max-drawdown
block of get_performance_analysis (performance_analyzer.py lines 259-265). -/
def drawdowns (xs : List ℚ) : List ℚ :=
  List.zipWith (fun m x => (m - x) / m) (runningMax xs) xs

/-- The max-drawdown block (performance_analyzer.py lines 258-269):
i = argmax of the drawdown series, j = argmax of the strict prefix x[:i],
result 1 - x[i]/x[j].  When i = 0 (a series that never draws down) the
prefix is empty and np.argmax raises ValueError, embedded as an error. -/
def max_drawdown (xs : List ℚ) : Except String ℚ :=
  match argmaxQ (drawdowns xs) with
  | none => Except.error "attempt to get argmax of an empty sequence"
  | some i =>
    match argmaxQ (xs.take i) with
    | none => Except.error "attempt to get argmax of an empty sequence"
    | some j => Except.ok (1 - xs.getD i 0 / xs.getD j 0)

/-- Forward-fill lookup: the value of the last raw observation whose date
is at or before d (raw observations in ascending date order), none if no
observation is that early.  This is the cell-level semantics of
Series.reindex(dates, method="ffill"). -/
def ffillGo : Option ℚ → List (ℕ × ℚ) → ℕ → Option ℚ
  | acc, [], _ => acc
  | acc, (t, v) :: rest, d => if t ≤ d then ffillGo (some v) rest d else acc

/-- benchmark_series.reindex(account_result.index, method="ffill")
(performance_analyzer.py lines 108-110). -/
def reindexFfill (raw : List (ℕ × ℚ)) (dates : List ℕ) : List (Option ℚ) :=
  dates.map (ffillGo none raw)

/-- One step of a linear congruential generator (Numerical Recipes
constants), a deterministic stand-in for numpy's seeded Mersenne Twister. -/
def lcgNext (x : ℕ) : ℕ := (1664525 * x + 1013904223) % 4294967296

/-- The k-th state of the generator started from seed 42, modelling
np.random.seed(42) in the fallback branch of get_benchmark. -/
def lcgStream : ℕ → ℕ → ℕ
  | s, 0 => lcgNext s
  | s, n + 1 => lcgStream (lcgNext s) n

/-- Modelled from the seeded fallback of get_benchmark
(performance_analyzer.py lines 119-121): one pseudo-random daily return.
The source draws np.random.normal(0.0005, 0.015) after np.random.seed(42);
the embedding uses a fixed LCG stream producing returns in [-5%, 5%],
which preserves the two properties the spec claims depend on: the series
is a deterministic function of the date grid, and it is a substituted
series rather than real benchmark data. -/
def simReturn (k : ℕ) : ℚ := ((lcgStream 42 k % 2001 : ℕ) : ℚ) / 20000 - 1 / 20

/-- Helper for simulatedBenchmark: 1000 times the running product of
(1 + simulated daily return), mirroring
pd.Series(1000, index=dates) * (1 + returns).cumprod(). -/
def simCumGo : ℚ → ℕ → ℕ → List ℚ
  | _, _, 0 => []
  | acc, k, n + 1 =>
    acc * (1 + simReturn k) :: simCumGo (acc * (1 + simReturn k)) (k + 1) n

/-- The simulated benchmark series substituted when fetching real benchmark
data fails (performance_analyzer.py lines 115-127). -/
def simulatedBenchmark (numDates : ℕ) : List ℚ := simCumGo 1000 0 numDates

/-- get_benchmark (performance_analyzer.py lines 26-127), "mcw" path.
The external price fetch (factor_utils.get_price over the window from one
trading day before the first account date) is an input: `some raw` is the
fetched (date, open-price) series in ascending date order, `none` is any
exception inside the try block.  On success the series is reindexed onto
the account date grid with forward-fill; on failure the seeded simulated
series is substituted.  No branch raises. -/
def get_benchmark (fetch : Option (List (ℕ × ℚ))) (dates : List ℕ) :
    List (Option ℚ) :=
  match fetch with
  | some raw => reindexFfill raw dates
  | none => (simulatedBenchmark dates.length).map some

/-- The account history handed to the analyzer: the index
(trading dates, ascending) and the total_account_asset column. -/
structure AccountResult where
  dates : List ℕ
  values : List ℚ
  deriving DecidableEq, Repr

/-- pd.concat([strategy, benchmark], axis=1)
(performance_analyzer.py lines 166-172): rows of (strategy value,
optional benchmark value) on the account date grid. -/
def perfRows (acct : AccountResult) (bench : List (Option ℚ)) :
    List (ℚ × Option ℚ) :=
  acct.values.zip bench

/-- Daily simple return of two optional observations; none whenever either
end is missing (NaN arithmetic). -/
def optRet : Option ℚ → Option ℚ → Option ℚ
  | some p, some c => some (c / p - 1)
  | _, _ => none

/-- performance.pct_change().dropna(how="all")
(performance_analyzer.py line 174).  Row 0 of pct_change is all-NaN and is
dropped; the strategy column is total, so every later row survives the
how="all" filter and only the benchmark entry can be missing. -/
def pairPct : List (ℚ × Option ℚ) → List (ℚ × Option ℚ)
  | [] => []
  | _ :: [] => []
  | (s0, b0) :: (s1, b1) :: rest =>
    (s1 / s0 - 1, optRet b0 b1) :: pairPct ((s1, b1) :: rest)

/-- The cumulative-return table performance_cumnet
(performance_analyzer.py lines 175-179), built in one pass: a row is
(strategy cumprod, benchmark cumprod, alpha).  sAcc/bAcc carry the two
running products of (1 + daily return); pandas cumprod skips NaN, so a
missing benchmark return leaves bAcc unchanged and yields NaN in the
benchmark cell, hence NaN in the alpha ratio, and the final fillna(1)
turns both cells into 1. -/
def cumnetGo : ℚ → ℚ → List (ℚ × Option ℚ) → List (ℚ × ℚ × ℚ)
  | _, _, [] => []
  | sAcc, bAcc, (sr, obr) :: rest =>
    match obr with
    | some br =>
      (sAcc * (1 + sr), bAcc * (1 + br), sAcc * (1 + sr) / (bAcc * (1 + br)))
        :: cumnetGo (sAcc * (1 + sr)) (bAcc * (1 + br)) rest
    | none => (sAcc * (1 + sr), 1, 1) :: cumnetGo (sAcc * (1 + sr)) bAcc rest

/-- performance_cumnet as a function of the analyzer's inputs. -/
def performance_cumnet (acct : AccountResult)
    (fetch : Option (List (ℕ × ℚ))) : List (ℚ × ℚ × ℚ) :=
  cumnetGo 1 1 (pairPct (perfRows acct (get_benchmark fetch acct.dates)))

/-- performance_cumnet.pct_change().dropna()
(performance_analyzer.py line 182); the table is total after fillna(1),
so only the leading all-NaN row is dropped. -/
def pct3 : List (ℚ × ℚ × ℚ) → List (ℚ × ℚ × ℚ)
  | [] => []
  | _ :: [] => []
  | (s0, b0, a0) :: (s1, b1, a1) :: rest =>
    (s1 / s0 - 1, b1 / b0 - 1, a1 / a0 - 1) :: pct3 ((s1, b1, a1) :: rest)

/-- Sum of a rational list. -/
def sumQ (xs : List ℚ) : ℚ := xs.foldr (· + ·) 0

/-- Mean of a rational list (0 on the empty list, mirroring the junk value
a degenerate float mean would only reach through paths no claim uses). -/
def meanQ (xs : List ℚ) : ℚ := sumQ xs / (xs.length : ℚ)

/-- Slope of the simple least-squares regression of ys on xs, the closed
form of the second coefficient of sm.OLS(y, sm.add_constant(x)).fit()
(performance_analyzer.py lines 219-224) for a non-degenerate regressor. -/
def olsSlope (xs ys : List ℚ) : ℚ :=
  ((xs.length : ℚ) * sumQ (List.zipWith (· * ·) xs ys) - sumQ xs * sumQ ys) /
    ((xs.length : ℚ) * sumQ (List.zipWith (· * ·) xs xs) - sumQ xs * sumQ xs)

/-- Intercept of the same regression, the closed form of params[0] of
sm.OLS(y, sm.add_constant(x)).fit(): add_constant prepends the constant
column, so params[0] is the intercept and params[1] the slope. -/
def olsIntercept (xs ys : List ℚ) : ℚ :=
  meanQ ys - olsSlope xs ys * meanQ xs

/-- The OLS inputs (performance_analyzer.py lines 204-205): benchmark
annualized excess returns, daily return * 252 - rf.  In the rational
embedding every value is finite, so the non-finite mask of lines 208-216
keeps every row and is omitted. -/
def benchExcess (acct : AccountResult) (rf : ℚ)
    (fetch : Option (List (ℕ × ℚ))) : List ℚ :=
  (pct3 (performance_cumnet acct fetch)).map (fun r => r.2.1 * 252 - rf)

/-- Strategy annualized excess returns (performance_analyzer.py line 204). -/
def stratExcess (acct : AccountResult) (rf : ℚ)
    (fetch : Option (List (ℕ × ℚ))) : List ℚ :=
  (pct3 (performance_cumnet acct fetch)).map (fun r => r.1 * 252 - rf)

/-- Days on which the alpha series daily return is strictly positive, the
True group of the "win" column (performance_analyzer.py line 302). -/
def winFilter (pct : List (ℚ × ℚ × ℚ)) : List (ℚ × ℚ × ℚ) :=
  pct.filter (fun r => 0 < r.2.2)

/-- The complementary False group of the "win" column. -/
def loseFilter (pct : List (ℚ × ℚ × ℚ)) : List (ℚ × ℚ × ℚ) :=
  pct.filter (fun r => ¬ 0 < r.2.2)

/-- Last row of the cumulative table, .iloc[-1] on a table known nonempty. -/
def lastRow (t : List (ℚ × ℚ × ℚ)) : ℚ × ℚ × ℚ := t.getLastD (1, 1, 1)

/-- The scalar results of get_performance_analysis that either appear in a
claim or gate an exception, before the display rounding to 4 decimals
applied when the source assembles its result dict. -/
structure MetricsCore where
  strategyFinalReturn : ℚ
  benchmarkFinalReturn : ℚ
  alphaFinalReturn : ℚ
  nObs : ℕ
  pctLen : ℕ
  Alpha : ℚ
  Beta : ℚ
  maxDrawdown : ℚ
  alphaMaxDrawdown : ℚ
  winCount : ℕ
  winRate : ℚ
  profitLoseRate : ℚ
  deriving DecidableEq, Repr

/-- get_performance_analysis (performance_analyzer.py lines 130-361) on the
"mcw" benchmark path, returning the cumulative table and the metrics, or
the first uncaught Python exception in source order:
.iloc[-1] on an empty table (line 186); ValueError from np.argmax on the
empty prefix inside the strategy max-drawdown block (line 266) and then
the alpha max-drawdown block (line 296); KeyError True from
value_counts().loc[True] when no day wins (line 303); KeyError False from
profit_lose[False] when no day loses (line 307).  The Alpha/Beta try block
(lines 202-233) falls back to (0, 1) when at most 5 observations remain
and never propagates an exception. -/
def get_performance_analysis (acct : AccountResult) (rf : ℚ)
    (fetch : Option (List (ℕ × ℚ))) :
    Except String (List (ℚ × ℚ × ℚ) × MetricsCore) :=
  if performance_cumnet acct fetch = [] then
    Except.error "single positional indexer is out-of-bounds"
  else
    match max_drawdown ((performance_cumnet acct fetch).map (fun r => r.1)) with
    | Except.error e => Except.error e
    | Except.ok mdd =>
      match max_drawdown
          ((performance_cumnet acct fetch).map (fun r => r.2.2)) with
      | Except.error e => Except.error e
      | Except.ok amdd =>
        if (winFilter (pct3 (performance_cumnet acct fetch))).length = 0
        then Except.error "KeyError: True"
        else if (loseFilter (pct3 (performance_cumnet acct fetch))).length = 0
        then Except.error "KeyError: False"
        else
          Except.ok (performance_cumnet acct fetch,
            { strategyFinalReturn := (lastRow (performance_cumnet acct fetch)).1 - 1
              benchmarkFinalReturn :=
                (lastRow (performance_cumnet acct fetch)).2.1 - 1
              alphaFinalReturn := (lastRow (performance_cumnet acct fetch)).2.2 - 1
              nObs := (performance_cumnet acct fetch).length
              pctLen := (pct3 (performance_cumnet acct fetch)).length
              Alpha :=
                if 5 < (pct3 (performance_cumnet acct fetch)).length then
                  olsIntercept (benchExcess acct rf fetch) (stratExcess acct rf fetch)
                else 0
              Beta :=
                if 5 < (pct3 (performance_cumnet acct fetch)).length then
                  olsSlope (benchExcess acct rf fetch) (stratExcess acct rf fetch)
                else 1
              maxDrawdown := mdd
              alphaMaxDrawdown := amdd
              winCount := (winFilter (pct3 (performance_cumnet acct fetch))).length
              winRate :=
                ((winFilter (pct3 (performance_cumnet acct fetch))).length : ℚ) /
                  ((pct3 (performance_cumnet acct fetch)).length : ℚ)
              profitLoseRate :=
                |meanQ ((winFilter (pct3 (performance_cumnet acct fetch))).map
                    (fun r => r.2.2)) /
                  meanQ ((loseFilter (pct3 (performance_cumnet acct fetch))).map
                    (fun r => r.2.2))| })

end BF

namespace BF

/-- Concrete account history: four trading days, a gain, a drawdown and a
partial recovery. -/
def acct4 : AccountResult := ⟨[1, 2, 3, 4], [100, 110, 99, 103]⟩

/-- Benchmark fetch covering the whole window including the previous
trading day (date 0), previous-day open 50. -/
def raw1 : List (ℕ × ℚ) := [(0, 50), (1, 100), (2, 102), (3, 101), (4, 103)]

/-- Same fetch except for the previous-trading-day open (999 vs 50). -/
def raw2 : List (ℕ × ℚ) := [(0, 999), (1, 100), (2, 102), (3, 101), (4, 103)]

/-- A fetched benchmark that does NOT cover the account's date range: its
first observation is at date 2, after the first account date 1. -/
def rawPartial : List (ℕ × ℚ) := [(2, 100), (3, 102), (4, 100)]

end BF


namespace BF

/-- Inversion of the success path of get_performance_analysis: whenever the
analysis returns, the returned table is performance_cumnet and every stored
metric is the corresponding source expression evaluated on it; moreover
both max-drawdown blocks succeeded and both win/lose groups are nonempty. -/
theorem analysis_ok_elim (acct : AccountResult) (rf : ℚ)
    (fetch : Option (List (ℕ × ℚ))) (t : List (ℚ × ℚ × ℚ)) (m : MetricsCore)
    (h : get_performance_analysis acct rf fetch = Except.ok (t, m)) :
    t = performance_cumnet acct fetch
    ∧ m.strategyFinalReturn = (lastRow t).1 - 1
    ∧ m.benchmarkFinalReturn = (lastRow t).2.1 - 1
    ∧ m.alphaFinalReturn = (lastRow t).2.2 - 1
    ∧ m.nObs = t.length
    ∧ m.pctLen = (pct3 t).length
    ∧ m.Alpha = (if 5 < (pct3 t).length then
        olsIntercept (benchExcess acct rf fetch) (stratExcess acct rf fetch) else 0)
    ∧ m.Beta = (if 5 < (pct3 t).length then
        olsSlope (benchExcess acct rf fetch) (stratExcess acct rf fetch) else 1)
    ∧ max_drawdown (t.map (fun r => r.1)) = Except.ok m.maxDrawdown
    ∧ max_drawdown (t.map (fun r => r.2.2)) = Except.ok m.alphaMaxDrawdown
    ∧ m.winCount = (winFilter (pct3 t)).length
    ∧ 0 < (winFilter (pct3 t)).length
    ∧ 0 < (loseFilter (pct3 t)).length
    ∧ m.winRate = ((m.winCount : ℚ)) / (((pct3 t).length : ℚ)) := by
  unfold get_performance_analysis at h
  split at h
  · exact absurd h (by simp)
  split at h
  · exact absurd h (by simp)
  rename_i mdd hmdd
  split at h
  · exact absurd h (by simp)
  rename_i amdd hamdd
  split at h
  · exact absurd h (by simp)
  rename_i hw
  split at h
  · exact absurd h (by simp)
  rename_i hl
  rw [Except.ok.injEq, Prod.mk.injEq] at h
  obtain ⟨ht, hm⟩ := h
  subst ht
  subst hm
  refine ⟨rfl, rfl, rfl, rfl, rfl, rfl, rfl, rfl, hmdd, hamdd, rfl,
    Nat.pos_of_ne_zero hw, Nat.pos_of_ne_zero hl, rfl⟩

end BF

namespace BF

/-- The cumulative table the analyzer returns on (acct4, raw1). -/
def tbl4 : List (ℚ × ℚ × ℚ) :=
  [(11/10, 51/50, 55/51), (99/100, 101/100, 99/101), (103/100, 103/100, 1)]

/-- The metrics record the analyzer returns on (acct4, raw1). -/
def met4 : MetricsCore :=
  { strategyFinalReturn := 3/100, benchmarkFinalReturn := 3/100,
    alphaFinalReturn := 0, nObs := 3, pctLen := 2, Alpha := 0, Beta := 1,
    maxDrawdown := 1/10, alphaMaxDrawdown := 46/505, winCount := 1,
    winRate := 1/2, profitLoseRate := 505/2277 }

/-- Concrete run of the analyzer on the 4-day account with the
full-coverage benchmark fetch raw1. -/
theorem res4_eval :
    get_performance_analysis acct4 (3/100) (some raw1) =
      Except.ok (tbl4, met4) := by
  norm_num [get_performance_analysis, performance_cumnet, cumnetGo, pairPct,
    perfRows, optRet, get_benchmark, reindexFfill, ffillGo, acct4, raw1,
    max_drawdown, drawdowns, runningMax, runMaxGo, argmaxQ, argmaxGo,
    winFilter, loseFilter, pct3, lastRow, List.filter, sumQ, meanQ,
    List.cons_ne_nil, reduceCtorEq, tbl4, met4]

end BF

namespace BF

/-- The simulated fallback series has one value per account date. -/
theorem simCumGo_length : ∀ (n : ℕ) (acc : ℚ) (k : ℕ),
    (simCumGo acc k n).length = n := by
  intro n
  induction n with
  | zero => intro acc k; rfl
  | succ n ih => intro acc k; simpa [simCumGo] using ih _ _

/-- C1 (amended): get_performance_analysis never raises a benchmark
misalignment error.  get_benchmark always produces one value per account
date: on a successful fetch it silently reindexes the fetched series onto
the account date grid by forward-fill (dates from before the first fetched
observation simply become missing cells, later filled with 1 in the
cumulative table), and on a failed fetch it substitutes the seeded
simulated series. -/
theorem C1_no_misalignment_error (dates : List ℕ)
    (fetch : Option (List (ℕ × ℚ))) :
    (get_benchmark fetch dates).length = dates.length
    ∧ (∀ raw, get_benchmark (some raw) dates = dates.map (ffillGo none raw))
    ∧ get_benchmark none dates = ((simulatedBenchmark dates.length).map some) := by
  refine ⟨?_, fun raw => rfl, rfl⟩
  cases fetch with
  | none => simp [get_benchmark, simulatedBenchmark, simCumGo_length]
  | some raw => simp [get_benchmark, reindexFfill]

/-- C1 (counterexample to the claim as stated): on a benchmark fetch whose
first observation (date 2) comes after the account's first date (date 1) -
so the benchmark series does not cover the AccountResult's date range -
the analysis does not raise any error: it returns a cumulative table and a
metrics record. -/
theorem C1_counterexample :
    ffillGo none rawPartial 1 = none
    ∧ (get_performance_analysis acct4 (3/100) (some rawPartial)).isOk = true := by
  constructor
  · rfl
  · norm_num [get_performance_analysis, performance_cumnet, cumnetGo, pairPct,
      perfRows, optRet, get_benchmark, reindexFfill, ffillGo, acct4, rawPartial,
      max_drawdown, drawdowns, runningMax, runMaxGo, argmaxQ, argmaxGo,
      winFilter, loseFilter, pct3, lastRow, List.filter,
      Except.isOk, Except.toBool, List.cons_ne_nil, reduceCtorEq]

end BF

namespace BF

/-- A strictly increasing account series: the cumulative strategy series
never draws down. -/
def acctInc : AccountResult := ⟨[1, 2, 3, 4], [100, 101, 102, 103]⟩

/-- A constant benchmark fetch covering the whole window. -/
def rawConst : List (ℕ × ℚ) :=
  [(0, 100), (1, 100), (2, 100), (3, 100), (4, 100)]

/-- C2: on a non-decreasing cumulative strategy series every drawdown is 0,
np.argmax of the drawdown series lands on index 0, and the source then
takes np.argmax of the empty slice x[:0], raising ValueError instead of
returning a max drawdown of 0.  The first conjunct states that the
cumulative strategy series of this input is indeed non-decreasing. -/
theorem C2_nondecreasing_series_raises :
    List.Chain' (· ≤ ·)
      ((performance_cumnet acctInc (some rawConst)).map (fun r => r.1))
    ∧ get_performance_analysis acctInc (3/100) (some rawConst)
      = Except.error "attempt to get argmax of an empty sequence" := by
  constructor
  · norm_num [performance_cumnet, cumnetGo, pairPct, perfRows, optRet,
      get_benchmark, reindexFfill, ffillGo, acctInc, rawConst,
      List.chain'_cons]
  · norm_num [get_performance_analysis, performance_cumnet, cumnetGo,
      pairPct, perfRows, optRet, get_benchmark, reindexFfill, ffillGo,
      acctInc, rawConst, max_drawdown, drawdowns, runningMax, runMaxGo,
      argmaxQ, argmaxGo, winFilter, loseFilter, pct3, lastRow, List.filter,
      List.cons_ne_nil, reduceCtorEq]

/-- An account whose total value never changes (the round-trip scenario of
the spec: all weight on a single instrument whose price never moves). -/
def acctConst : AccountResult := ⟨[1, 2, 3, 4], [100, 100, 100, 100]⟩

/-- A varying full-coverage benchmark fetch. -/
def rawVar : List (ℕ × ℚ) :=
  [(0, 100), (1, 100), (2, 102), (3, 101), (4, 103)]

/-- C4: on an account series that never changes, the analysis does not
return zero annualized return / zero volatility with an undefined Sharpe;
it raises: the constant cumulative series makes the drawdown argmax land
on index 0 and np.argmax of the empty slice raises ValueError before the
metrics dict is ever assembled. -/
theorem C4_zero_variance_raises :
    get_performance_analysis acctConst (3/100) (some rawVar)
      = Except.error "attempt to get argmax of an empty sequence" := by
  norm_num [get_performance_analysis, performance_cumnet, cumnetGo,
    pairPct, perfRows, optRet, get_benchmark, reindexFfill, ffillGo,
    acctConst, rawVar, max_drawdown, drawdowns, runningMax, runMaxGo,
    argmaxQ, argmaxGo, winFilter, loseFilter, pct3, lastRow, List.filter,
    List.cons_ne_nil, reduceCtorEq]

/-- Three trading days: the single alpha daily return is negative. -/
def acct3 : AccountResult := ⟨[1, 2, 3], [100, 110, 99]⟩

/-- A benchmark fetch for acct3 that outgrows the strategy, so no day wins. -/
def raw3 : List (ℕ × ℚ) := [(0, 100), (1, 100), (2, 105), (3, 110)]

/-- C10: a valid input on which no day's alpha daily return is positive
makes value_counts().loc[True] a missing-key lookup: the analysis raises
KeyError instead of returning the metrics dictionary. -/
theorem C10_same_sign_alpha_raises :
    (winFilter (pct3 (performance_cumnet acct3 (some raw3)))).length = 0
    ∧ get_performance_analysis acct3 (3/100) (some raw3)
      = Except.error "KeyError: True" := by
  constructor
  · norm_num [performance_cumnet, cumnetGo, pairPct, perfRows, optRet,
      get_benchmark, reindexFfill, ffillGo, acct3, raw3, winFilter, pct3,
      List.filter]
  · norm_num [get_performance_analysis, performance_cumnet, cumnetGo,
      pairPct, perfRows, optRet, get_benchmark, reindexFfill, ffillGo,
      acct3, raw3, max_drawdown, drawdowns, runningMax, runMaxGo,
      argmaxQ, argmaxGo, winFilter, loseFilter, pct3, lastRow, List.filter,
      List.cons_ne_nil, reduceCtorEq]

end BF

namespace BF

/-- C9: the analysis is a pure function of the account series, the
risk-free rate and the benchmark fetch; identical inputs give identical
cumulative tables and metrics.  The only stochastic ingredient of the
source, the benchmark fallback, is seeded with the constant 42 and is
itself a function of the inputs. -/
theorem C9_deterministic (a1 a2 : AccountResult) (r1 r2 : ℚ)
    (f1 f2 : Option (List (ℕ × ℚ)))
    (ha : a1 = a2) (hr : r1 = r2) (hf : f1 = f2) :
    get_performance_analysis a1 r1 f1 = get_performance_analysis a2 r2 f2 := by
  rw [ha, hr, hf]

/-- Witness for C9 at a concrete input. -/
theorem C9_deterministic_witness :
    get_performance_analysis acct4 (3/100) (some raw1)
      = get_performance_analysis acct4 (3/100) (some raw1) :=
  C9_deterministic acct4 acct4 (3/100) (3/100) (some raw1) (some raw1)
    rfl rfl rfl

/-- C5 (counterexample to the "previous trading day as base" part): raw1
and raw2 are two benchmark fetches that differ only in the benchmark value
one trading day before the simulation's first date (50 versus 999, date 0
before first account date 1); the analysis output is identical, and is a
successful result, so that previous-day value is not the base of any
returned benchmark computation. -/
theorem C5_counterexample :
    ffillGo none raw1 0 ≠ ffillGo none raw2 0
    ∧ get_performance_analysis acct4 (3/100) (some raw1)
      = get_performance_analysis acct4 (3/100) (some raw2)
    ∧ (get_performance_analysis acct4 (3/100) (some raw1)).isOk = true := by
  refine ⟨by norm_num [ffillGo, raw1, raw2], ?_, ?_⟩
  · norm_num [get_performance_analysis, performance_cumnet, cumnetGo,
      pairPct, perfRows, optRet, get_benchmark, reindexFfill, ffillGo,
      acct4, raw1, raw2, max_drawdown, drawdowns, runningMax, runMaxGo,
      argmaxQ, argmaxGo, winFilter, loseFilter, pct3, lastRow, List.filter,
      List.cons_ne_nil, reduceCtorEq]
  · rw [res4_eval]
    rfl

end BF

namespace BF

/-- C6: the total-return metrics are the final cumulative values minus 1
for the strategy, benchmark and alpha columns alike; the exponent count N
stored for annualization is the number of rows of the returned cumulative
table, so each annualized return (1 + total)^(252/N) - 1 is the claim's
formula evaluated on the returned table. -/
theorem C6_final_and_annualized_returns (acct : AccountResult) (rf : ℚ)
    (fetch : Option (List (ℕ × ℚ))) (t : List (ℚ × ℚ × ℚ)) (m : MetricsCore)
    (h : get_performance_analysis acct rf fetch = Except.ok (t, m)) :
    m.strategyFinalReturn = (lastRow t).1 - 1
    ∧ m.benchmarkFinalReturn = (lastRow t).2.1 - 1
    ∧ m.alphaFinalReturn = (lastRow t).2.2 - 1
    ∧ m.nObs = t.length
    ∧ (1 + (m.strategyFinalReturn : ℝ)) ^ ((252 : ℝ) / (m.nObs : ℝ)) - 1
      = (1 + (((lastRow t).1 - 1 : ℚ) : ℝ)) ^ ((252 : ℝ) / (t.length : ℝ)) - 1
    ∧ (1 + (m.benchmarkFinalReturn : ℝ)) ^ ((252 : ℝ) / (m.nObs : ℝ)) - 1
      = (1 + (((lastRow t).2.1 - 1 : ℚ) : ℝ)) ^ ((252 : ℝ) / (t.length : ℝ)) - 1
    ∧ (1 + (m.alphaFinalReturn : ℝ)) ^ ((252 : ℝ) / (m.nObs : ℝ)) - 1
      = (1 + (((lastRow t).2.2 - 1 : ℚ) : ℝ)) ^ ((252 : ℝ) / (t.length : ℝ)) - 1 := by
  obtain ⟨-, hs, hb, ha, hn, -⟩ := analysis_ok_elim acct rf fetch t m h
  refine ⟨hs, hb, ha, hn, ?_, ?_, ?_⟩
  · rw [hs, hn]
  · rw [hb, hn]
  · rw [ha, hn]

/-- Witness for C6 at the 4-day input. -/
theorem C6_final_and_annualized_returns_witness :
    met4.strategyFinalReturn = (lastRow tbl4).1 - 1
    ∧ met4.benchmarkFinalReturn = (lastRow tbl4).2.1 - 1
    ∧ met4.alphaFinalReturn = (lastRow tbl4).2.2 - 1
    ∧ met4.nObs = tbl4.length
    ∧ (1 + (met4.strategyFinalReturn : ℝ)) ^ ((252 : ℝ) / (met4.nObs : ℝ)) - 1
      = (1 + (((lastRow tbl4).1 - 1 : ℚ) : ℝ)) ^ ((252 : ℝ) / (tbl4.length : ℝ)) - 1
    ∧ (1 + (met4.benchmarkFinalReturn : ℝ)) ^ ((252 : ℝ) / (met4.nObs : ℝ)) - 1
      = (1 + (((lastRow tbl4).2.1 - 1 : ℚ) : ℝ)) ^ ((252 : ℝ) / (tbl4.length : ℝ)) - 1
    ∧ (1 + (met4.alphaFinalReturn : ℝ)) ^ ((252 : ℝ) / (met4.nObs : ℝ)) - 1
      = (1 + (((lastRow tbl4).2.2 - 1 : ℚ) : ℝ)) ^ ((252 : ℝ) / (tbl4.length : ℝ)) - 1 :=
  C6_final_and_annualized_returns acct4 (3/100) (some raw1) tbl4 met4 res4_eval

end BF

namespace BF

/-- Structure of the cumulative table on a fully covered benchmark: each
row telescopes to (A * s/x, B * b/y, ratio) where x and y are the FIRST
values of the two series (A and B are the running-product seeds). -/
theorem cumnetGo_sections (sv : List ℚ) : ∀ (bv : List ℚ) (x y A B : ℚ),
    x ≠ 0 → (∀ v ∈ sv, v ≠ 0) → (∀ v ∈ bv, v ≠ 0) →
    sv.length = bv.length →
    cumnetGo A B (pairPct ((x :: sv).zip ((y :: bv).map some)))
    = List.zipWith
        (fun sV bV => (A * sV / x, B * bV / y, A * sV / x / (B * bV / y)))
        sv bv := by
  induction sv with
  | nil =>
    intro bv x y A B hx hsv hbv hlen
    cases bv with
    | nil => rfl
    | cons b1 bv => simp at hlen
  | cons s1 sv ih =>
    intro bv x y A B hx hsv hbv hlen
    cases bv with
    | nil => simp at hlen
    | cons b1 bv =>
      have hs1 : s1 ≠ 0 := hsv s1 (by simp)
      have hb1 : b1 ≠ 0 := hbv b1 (by simp)
      have hrest : ∀ v ∈ sv, v ≠ 0 := fun v hv => hsv v (by simp [hv])
      have hbrest : ∀ v ∈ bv, v ≠ 0 := fun v hv => hbv v (by simp [hv])
      have hlen2 : sv.length = bv.length := by simpa using hlen
      have ih2 := ih bv s1 b1 (A * (1 + (s1 / x - 1)))
        (B * (1 + (b1 / y - 1))) hs1 hrest hbrest hlen2
      simp only [List.zip_eq_zipWith, List.map_cons, List.zipWith_cons_cons,
        pairPct, optRet, cumnetGo] at ih2 ⊢
      rw [ih2]
      have e1 : A * (1 + (s1 / x - 1)) = A * s1 / x := by ring
      have e2 : B * (1 + (b1 / y - 1)) = B * b1 / y := by ring
      rw [e1, e2]
      have g1 : ∀ sV : ℚ, A * s1 / x * sV / s1 = A * sV / x := by
        intro sV
        have e : A * s1 / x * sV / s1 = s1 / s1 * (A * sV / x) := by ring
        rw [e, div_self hs1, one_mul]
      have g2 : ∀ bV : ℚ, B * b1 / y * bV / b1 = B * bV / y := by
        intro bV
        have e : B * b1 / y * bV / b1 = b1 / b1 * (B * bV / y) := by ring
        rw [e, div_self hb1, one_mul]
      have efun :
          (fun sV bV => (A * s1 / x * sV / s1, B * b1 / y * bV / b1,
            A * s1 / x * sV / s1 / (B * b1 / y * bV / b1)))
          = (fun sV bV : ℚ => (A * sV / x, B * bV / y,
            A * sV / x / (B * bV / y))) := by
        funext sV bV
        rw [g1, g2]
      rw [efun]

end BF

namespace BF

/-- C5 (amended): the benchmark is aligned onto the strategy date grid by
forward-filling, and when the first strategy date is covered by the fetch
the base of the benchmark daily/cumulative computation is the benchmark
value ON THE FIRST STRATEGY DATE b0 (every benchmark cumulative entry is
bV / b0), not the value one trading day earlier - the earlier fetch start
only serves as a forward-fill source. -/
theorem C5_ffill_and_first_date_base (dates : List ℕ)
    (fetch : Option (List (ℕ × ℚ))) (v0 b0 : ℚ) (vs bs : List ℚ)
    (hb : get_benchmark fetch dates = ((b0 :: bs).map some))
    (hlen : vs.length = bs.length)
    (hv0 : v0 ≠ 0) (hvs : ∀ v ∈ vs, v ≠ 0) (hbs : ∀ v ∈ bs, v ≠ 0) :
    (∀ raw, fetch = some raw →
      get_benchmark fetch dates = dates.map (ffillGo none raw))
    ∧ performance_cumnet ⟨dates, v0 :: vs⟩ fetch
      = List.zipWith
          (fun sV bV => (sV / v0, bV / b0, sV / v0 / (bV / b0))) vs bs := by
  constructor
  · intro raw hraw
    subst hraw
    rfl
  · show cumnetGo 1 1
        (pairPct ((v0 :: vs).zip (get_benchmark fetch dates))) = _
    rw [hb]
    rw [cumnetGo_sections vs bs v0 b0 1 1 hv0 hvs hbs hlen]
    have efun :
        (fun sV bV : ℚ =>
          (1 * sV / v0, 1 * bV / b0, 1 * sV / v0 / (1 * bV / b0)))
        = (fun sV bV : ℚ => (sV / v0, bV / b0, sV / v0 / (bV / b0))) := by
      funext sV bV
      rw [one_mul, one_mul]
    rw [efun]

/-- Witness for C5 (amended) at the 4-day input with fetch raw1. -/
theorem C5_ffill_and_first_date_base_witness :
    performance_cumnet ⟨[1, 2, 3, 4], [100, 110, 99, 103]⟩ (some raw1)
      = List.zipWith
          (fun sV bV => (sV / 100, bV / 100, sV / 100 / (bV / 100)))
          [110, 99, 103] [102, 101, 103] :=
  (C5_ffill_and_first_date_base [1, 2, 3, 4] (some raw1) 100 100
    [110, 99, 103] [102, 101, 103]
    (by norm_num [get_benchmark, reindexFfill, ffillGo, raw1])
    rfl (by norm_num) (by norm_num) (by norm_num)).2

end BF

namespace BF

/-- If every benchmark cell of the concatenated table is present, every
benchmark daily return of pairPct is present. -/
theorem pairPct_isSome (l : List (ℚ × Option ℚ))
    (hl : ∀ p ∈ l, p.2.isSome = true) :
    ∀ q ∈ pairPct l, q.2.isSome = true := by
  induction l with
  | nil => intro q hq; simp [pairPct] at hq
  | cons a l ih =>
    cases l with
    | nil => intro q hq; simp [pairPct] at hq
    | cons b rest =>
      intro q hq
      obtain ⟨a1, a2⟩ := a
      obtain ⟨b1, b2⟩ := b
      rw [pairPct] at hq
      rcases List.mem_cons.1 hq with hq | hq
      · subst hq
        have ha2 : a2.isSome = true := hl (a1, a2) (by simp)
        have hb2 : b2.isSome = true := hl (b1, b2) (by simp)
        obtain ⟨x, hx⟩ := Option.isSome_iff_exists.1 ha2
        obtain ⟨y, hy⟩ := Option.isSome_iff_exists.1 hb2
        subst hx
        subst hy
        rfl
      · exact ih (fun p hp => hl p (by simp [List.mem_cons.1 hp])) q hq

/-- Every row the cumulative-table builder produces from fully present
benchmark returns stores exactly the ratio strategy / benchmark in its
alpha cell. -/
theorem cumnetGo_ratio (l : List (ℚ × Option ℚ)) :
    ∀ (A B : ℚ), (∀ p ∈ l, p.2.isSome = true) →
    ∀ r ∈ cumnetGo A B l, r.2.2 = r.1 / r.2.1 := by
  induction l with
  | nil => intro A B hl r hr; simp [cumnetGo] at hr
  | cons a l ih =>
    intro A B hl r hr
    obtain ⟨sr, obr⟩ := a
    cases obr with
    | none =>
      have := hl (sr, none) (by simp)
      simp at this
    | some br =>
      rw [cumnetGo] at hr
      rcases List.mem_cons.1 hr with hr | hr
      · subst hr
        rfl
      · exact ih _ _ (fun p hp => hl p (by simp [hp])) r hr

/-- C8 (amended): whenever the analysis returns and the benchmark covers
every account date (no missing cells after the forward-fill reindex), each
row of the returned cumulative table has alpha = strategy / benchmark, and
the win-rate metric is the number of days with strictly positive alpha
daily return divided by the total number of rows of the daily-return
table.  The coverage hypothesis is necessary: on a partially covered
benchmark the fillna(1) overwrite breaks the pointwise identity (see the
counterexample below). -/
theorem C8_alpha_ratio_and_win_rate (acct : AccountResult) (rf : ℚ)
    (fetch : Option (List (ℕ × ℚ))) (t : List (ℚ × ℚ × ℚ)) (m : MetricsCore)
    (hcov : ∀ o ∈ get_benchmark fetch acct.dates, o.isSome = true)
    (h : get_performance_analysis acct rf fetch = Except.ok (t, m)) :
    (∀ r ∈ t, r.2.2 = r.1 / r.2.1)
    ∧ m.winRate = ((winFilter (pct3 t)).length : ℚ)
        / ((pct3 t).length : ℚ) := by
  obtain ⟨ht, -, -, -, -, -, -, -, -, -, hwc, -, -, hwr⟩ :=
    analysis_ok_elim acct rf fetch t m h
  constructor
  · intro r hr
    rw [ht] at hr
    refine cumnetGo_ratio _ 1 1 ?_ r hr
    refine pairPct_isSome _ ?_
    intro p hp
    exact hcov p.2 (List.of_mem_zip hp).2
  · rw [hwr, hwc]

/-- Witness for C8 at the 4-day input with the full-coverage fetch raw1. -/
theorem C8_alpha_ratio_and_win_rate_witness :
    (∀ r ∈ tbl4, r.2.2 = r.1 / r.2.1)
    ∧ met4.winRate = ((winFilter (pct3 tbl4)).length : ℚ)
        / ((pct3 tbl4).length : ℚ) :=
  C8_alpha_ratio_and_win_rate acct4 (3/100) (some raw1) tbl4 met4
    (by norm_num [get_benchmark, reindexFfill, ffillGo, acct4, raw1])
    res4_eval

end BF

namespace BF

/-- Stable insertion into a score-sorted list: an element goes before every
element of equal or larger score that appeared later in the row, matching
the keep="first" behaviour of Series.nsmallest. -/
def insertByScore (p : ℕ × ℚ) : List (ℕ × ℚ) → List (ℕ × ℚ)
  | [] => [p]
  | q :: rest =>
    if q.2 < p.2 then q :: insertByScore p rest else p :: q :: rest

/-- Stable sort of (column index, score) pairs by ascending score. -/
def sortByScore : List (ℕ × ℚ) → List (ℕ × ℚ)
  | [] => []
  | p :: rest => insertByScore p (sortByScore rest)

/-- select_top_n_stocks (get_buy_signal.py lines 19-42,
portfolio_weights_gen.py lines 21-44): take the n smallest valid scores of
the row (rank ascending, NaN skipped), mark the selected cells 1 and every
other cell NaN.  When no score is valid the whole row is NaN, which is
also what the take-from-empty path produces. -/
def select_top_n_stocks (row : List (Option ℚ)) (n : ℕ) : List (Option ℚ) :=
  let valid : List (ℕ × ℚ) :=
    row.enum.filterMap (fun p => p.2.map (fun v => (p.1, v)))
  let top : List ℕ := ((sortByScore valid).take n).map (fun p => p.1)
  row.enum.map (fun p => if p.1 ∈ top then some (1 : ℚ) else none)

/-- The mask step (get_buy_signal.py line 66 applies .mask(suspended) and
.mask(st); portfolio_weights_gen.py line 74 applies .mask(~combo_mask)):
a cell is blanked to NaN exactly where the combined exclusion table is
True.  The exclusion table is an input, covering both variants. -/
def maskCells (pivot : List (List (Option ℚ))) (excl : List (List Bool)) :
    List (List (Option ℚ)) :=
  pivot.enum.map (fun pr =>
    pr.2.enum.map (fun pc =>
      if (excl.getD pr.1 []).getD pc.1 false then none else pc.2))

/-- Row-wise dynamic selection (step 2 of apply_filters_and_select_stocks). -/
def selectRows (masked : List (List (Option ℚ))) (n : ℕ) :
    List (List (Option ℚ)) :=
  masked.map (fun row => select_top_n_stocks row n)

/-- Column j holds a value in some row (the column survives
dropna(axis=1, how="all"), step 3). -/
def keptCol (rows : List (List (Option ℚ))) (j : ℕ) : Bool :=
  rows.any (fun r => (r.getD j none).isSome)

/-- dropna(axis=1, how="all"): delete the columns never selected. -/
def dropAllNaNCols (rows : List (List (Option ℚ))) :
    List (List (Option ℚ)) :=
  rows.map (fun r => (r.enum.filter (fun p => keptCol rows p.1)).map
    (fun p => p.2))

/-- shift(1) (step 4): each date takes the previous date's selection, the
first date becomes all-NaN and the last selection row falls off the end. -/
def shiftRows (rows : List (List (Option ℚ))) : List (List (Option ℚ)) :=
  match rows with
  | [] => []
  | r :: _ => List.replicate r.length (none : Option ℚ) :: rows.dropLast

/-- dropna(how="all") (step 5): delete the dates with no signal. -/
def dropEmptyRows (rows : List (List (Option ℚ))) :
    List (List (Option ℚ)) :=
  rows.filter (fun r => r.any (fun c => c.isSome))

/-- buy_list.sum(axis=1): row sum skipping NaN. -/
def rowSum (r : List (Option ℚ)) : ℚ := sumQ (r.filterMap id)

/-- buy_list.div(buy_list.sum(axis=1), axis=0) (step 6). -/
def divByRowSum (rows : List (List (Option ℚ))) : List (List (Option ℚ)) :=
  rows.map (fun r => r.map (Option.map (fun v => v / rowSum r)))

/-- apply_filters_and_select_stocks (get_buy_signal.py lines 45-86 and
portfolio_weights_gen.py lines 47-94; the two files share this pipeline
verbatim and differ only in where the exclusion mask comes from). -/
def apply_filters_and_select_stocks (pivot : List (List (Option ℚ)))
    (excl : List (List Bool)) (rank_n : ℕ) : List (List (Option ℚ)) :=
  divByRowSum (dropEmptyRows (shiftRows (dropAllNaNCols
    (selectRows (maskCells pivot excl) rank_n))))

/-- Number of dated weight entries in a row (non-NaN cells). -/
def countSomes (r : List (Option ℚ)) : ℕ := (r.filterMap id).length

end BF

namespace BF

/-- Every cell of a row is either missing or the marker 1. -/
def Cells01 (r : List (Option ℚ)) : Prop := ∀ c ∈ r, c = none ∨ c = some 1

/-- The selection step only writes the marker 1 or NaN. -/
theorem select_cells01 (row : List (Option ℚ)) (n : ℕ) :
    Cells01 (select_top_n_stocks row n) := by
  intro c hc
  unfold select_top_n_stocks at hc
  simp only [List.mem_map] at hc
  obtain ⟨p, hp, rfl⟩ := hc
  split_ifs
  · exact Or.inr rfl
  · exact Or.inl rfl

/-- Dropping all-NaN columns keeps each row's cells a sub-collection of
the original row's cells. -/
theorem mem_dropAllNaNCols (rows : List (List (Option ℚ)))
    (r : List (Option ℚ)) (hr : r ∈ dropAllNaNCols rows) :
    ∃ r0 ∈ rows, ∀ c ∈ r, c ∈ r0 := by
  unfold dropAllNaNCols at hr
  obtain ⟨r0, hr0, rfl⟩ := List.mem_map.1 hr
  refine ⟨r0, hr0, ?_⟩
  intro c hc
  obtain ⟨p, hp, rfl⟩ := List.mem_map.1 hc
  have hpe : p ∈ r0.enum := (List.mem_filter.1 hp).1
  exact List.getElem?_mem (List.mem_enum_iff_getElem?.1 hpe)

/-- A shifted row is either the inserted all-NaN first row or one of the
original rows. -/
theorem mem_shiftRows (rows : List (List (Option ℚ)))
    (r : List (Option ℚ)) (hr : r ∈ shiftRows rows) :
    (∃ n, r = List.replicate n (none : Option ℚ)) ∨ r ∈ rows := by
  unfold shiftRows at hr
  cases rows with
  | nil => simp at hr
  | cons r0 rest =>
    rcases List.mem_cons.1 hr with h | h
    · exact Or.inl ⟨r0.length, h⟩
    · exact Or.inr (List.mem_of_mem_dropLast h)

/-- A row with at least one present cell has a positive entry count. -/
theorem countSomes_pos (r : List (Option ℚ))
    (h : r.any (fun c => c.isSome) = true) : 0 < countSomes r := by
  unfold countSomes
  obtain ⟨c, hc, hcs⟩ := List.any_eq_true.1 h
  obtain ⟨v, rfl⟩ := Option.isSome_iff_exists.1 hcs
  have hv : v ∈ r.filterMap id := List.mem_filterMap.2 ⟨some v, hc, rfl⟩
  exact List.length_pos.2 (List.ne_nil_of_mem hv)

/-- The present cells of a 0/1 row are exactly countSomes copies of 1. -/
theorem cells01_filterMap (r : List (Option ℚ)) (h : Cells01 r) :
    r.filterMap id = List.replicate (countSomes r) 1 := by
  unfold countSomes
  induction r with
  | nil => rfl
  | cons c r ih =>
    have hr : Cells01 r := fun d hd => h d (by simp [hd])
    rcases h c (by simp) with hc | hc
    · subst hc
      rw [List.filterMap_cons_none (rfl : id (none : Option ℚ) = none)]
      exact ih hr
    · subst hc
      rw [List.filterMap_cons_some (rfl : id (some (1 : ℚ)) = some 1),
        List.length_cons, List.replicate_succ]
      exact congrArg (List.cons 1) (ih hr)

/-- Sum of a constant list. -/
theorem sumQ_replicate (n : ℕ) (c : ℚ) :
    sumQ (List.replicate n c) = n * c := by
  induction n with
  | zero => simp [sumQ]
  | succ n ih =>
    simp only [List.replicate_succ, sumQ, List.foldr_cons] at *
    rw [ih]
    push_cast
    ring

/-- filterMap id commutes with mapping a function over the present cells. -/
theorem filterMap_id_map_optionMap (f : ℚ → ℚ) (r : List (Option ℚ)) :
    (r.map (Option.map f)).filterMap id = (r.filterMap id).map f := by
  induction r with
  | nil => rfl
  | cons c r ih => cases c <;> simp [ih]

/-- C7: every date row of the generated WeightMatrix that carries entries
carries non-negative weights summing to 1, each equal to 1/k where k is
the number of instruments selected that day (rows with no entries were
dropped by step 5, so every surviving row is fully invested). -/
theorem C7_weight_rows (pivot : List (List (Option ℚ)))
    (excl : List (List Bool)) (rank_n : ℕ) (row : List (Option ℚ))
    (hrow : row ∈ apply_filters_and_select_stocks pivot excl rank_n) :
    0 < countSomes row
    ∧ rowSum row = 1
    ∧ ∀ w ∈ row.filterMap id, w = 1 / (countSomes row : ℚ) ∧ 0 ≤ w := by
  unfold apply_filters_and_select_stocks divByRowSum at hrow
  obtain ⟨r, hrX, rfl⟩ := List.mem_map.1 hrow
  unfold dropEmptyRows at hrX
  have hany := (List.mem_filter.1 hrX).2
  have hmem := (List.mem_filter.1 hrX).1
  have h01 : Cells01 r := by
    rcases mem_shiftRows _ _ hmem with ⟨n, rfl⟩ | hmem2
    · intro c hc
      exact Or.inl (List.eq_of_mem_replicate hc)
    · obtain ⟨r0, hr0, hsub⟩ := mem_dropAllNaNCols _ _ hmem2
      unfold selectRows at hr0
      obtain ⟨row0, hrow0, rfl⟩ := List.mem_map.1 hr0
      intro c hc
      exact select_cells01 _ _ c (hsub c hc)
  have hk : 0 < countSomes r := countSomes_pos r hany
  have hones : r.filterMap id = List.replicate (countSomes r) 1 :=
    cells01_filterMap r h01
  have hsum : rowSum r = (countSomes r : ℚ) := by
    unfold rowSum
    rw [hones, sumQ_replicate, mul_one]
  have hkQ : ((countSomes r : ℚ)) ≠ 0 := by
    exact_mod_cast Nat.pos_iff_ne_zero.1 hk
  have hfm : (r.map (Option.map (fun v => v / rowSum r))).filterMap id
      = List.replicate (countSomes r) (1 / (countSomes r : ℚ)) := by
    rw [filterMap_id_map_optionMap, hones, List.map_replicate, hsum]
  have hcount : countSomes (r.map (Option.map (fun v => v / rowSum r)))
      = countSomes r := by
    unfold countSomes
    rw [hfm, List.length_replicate]
    rfl
  refine ⟨?_, ?_, ?_⟩
  · rw [hcount]
    exact hk
  · show sumQ ((r.map (Option.map (fun v => v / rowSum r))).filterMap id) = 1
    rw [hfm, sumQ_replicate]
    field_simp
  · intro w hw
    rw [hfm] at hw
    have hw1 := List.eq_of_mem_replicate hw
    subst hw1
    refine ⟨by rw [hcount], by positivity⟩

end BF

namespace BF

/-- Witness for C7: a two-day, two-instrument signal with rank 1; the
single surviving weight row holds one entry of weight 1. -/
theorem C7_weight_rows_witness :
    0 < countSomes [some 1, none]
    ∧ rowSum [some 1, none] = 1
    ∧ ∀ w ∈ ([some (1 : ℚ), none] : List (Option ℚ)).filterMap id,
        w = 1 / (countSomes [some (1 : ℚ), none] : ℚ) ∧ 0 ≤ w :=
  C7_weight_rows [[some 1, some 2], [some 3, some 1]]
    [[false, false], [false, false]] 1 [some 1, none]
    (by norm_num [apply_filters_and_select_stocks, divByRowSum,
      dropEmptyRows, shiftRows, dropAllNaNCols, selectRows, maskCells,
      select_top_n_stocks, sortByScore, insertByScore, keptCol, rowSum,
      sumQ, List.filter, List.enum, List.enumFrom, List.filterMap,
      List.any, List.dropLast, List.replicate])

end BF

namespace BF

/-- The cumulative table the analyzer returns on (acct4, rawPartial): the
first account date has no benchmark data, so fillna(1) wrote 1 into the
benchmark and alpha cells of the first row. -/
def tblPartial : List (ℚ × ℚ × ℚ) :=
  [(11/10, 1, 1), (99/100, 51/50, 33/34), (103/100, 1, 103/100)]

/-- The metrics record the analyzer returns on (acct4, rawPartial). -/
def metPartial : MetricsCore :=
  { strategyFinalReturn := 3/100, benchmarkFinalReturn := 0,
    alphaFinalReturn := 3/100, nObs := 3, pctLen := 2, Alpha := 0, Beta := 1,
    maxDrawdown := 1/10, alphaMaxDrawdown := 1/34, winCount := 1,
    winRate := 1/2, profitLoseRate := 1717/825 }

/-- C8 (counterexample to the claim as stated, over every input): on the
partially covered benchmark fetch rawPartial the analysis still returns
Ok, and the first row of the returned cumulative table is (11/10, 1, 1):
its alpha cell holds the fillna value 1, not
strategy / benchmark = (11/10) / 1, so the alpha series is not the
pointwise ratio of the other two columns on this input. -/
theorem C8_counterexample :
    get_performance_analysis acct4 (3/100) (some rawPartial)
      = Except.ok (tblPartial, metPartial)
    ∧ (tblPartial.getD 0 (1, 1, 1)).2.2
      ≠ (tblPartial.getD 0 (1, 1, 1)).1 / (tblPartial.getD 0 (1, 1, 1)).2.1 := by
  constructor
  · norm_num [get_performance_analysis, performance_cumnet, cumnetGo,
      pairPct, perfRows, optRet, get_benchmark, reindexFfill, ffillGo,
      acct4, rawPartial, max_drawdown, drawdowns, runningMax, runMaxGo,
      argmaxQ, argmaxGo, winFilter, loseFilter, pct3, lastRow, List.filter,
      sumQ, meanQ, List.cons_ne_nil, reduceCtorEq, tblPartial, metPartial]
  · norm_num [tblPartial]

end BF
